import Mathlib

/-!
Verification of the `shiftadd` stacking script (`hipercam/scripts/shiftadd.py`).

The numeric model uses exact rationals `ℚ` in place of IEEE floats; NaN cells
are modelled as `none : Option ℚ`.  Fallible steps return `Except HipercamError`.
Python's negative-index slice semantics and `int()` truncation are modelled
explicitly (`pyIdx`, `pyInt`).
-/

namespace Shiftadd

/-- Decidable equality for `Except`, so concrete runs can be evaluated. -/
instance {ε α : Type} [DecidableEq ε] [DecidableEq α] : DecidableEq (Except ε α) := fun a b =>
  match a, b with
  | .ok x, .ok y =>
    if h : x = y then .isTrue (by rw [h]) else .isFalse (by simp [h])
  | .error x, .error y =>
    if h : x = y then .isTrue (by rw [h]) else .isFalse (by simp [h])
  | .ok _, .error _ => .isFalse (by simp)
  | .error _, .ok _ => .isFalse (by simp)

/-- Errors raised by `shiftadd` (each `raise hcam.HipercamError(...)` site, plus
numpy/list `IndexError`).  Constructors carry the data interpolated into the
corresponding message f-string. -/
inductive HipercamError : Type
  /-- "frame {nf + first} has no data in CCD {ref_cnam}, so cannot be used as refccd" -/
  | refNoData (frameIdx : ℕ) (refCnam : String)
  /-- "found no data for CCD {cnam} in the selected frames" -/
  | noDataForCCD (cnam : String)
  /-- "NaN values detected in combined data for CCD {cnam}, window {wnam}" -/
  | nanInWindow (cnam : String) (wnam : String)
  /-- "failed to create WCS from header, cannot use 'exact' reprojection method" -/
  | wcsExactUnavailable
  /-- IndexError from `fwhm_values[nf]` or `offsets[nf]` out of range -/
  | indexError
  deriving DecidableEq

/-! ## Drift normalizer (shiftadd.py lines 509-516) -/

/-- Column-wise mean of an offset list: `offsets.mean(axis=0)`. -/
def colMean (l : List (ℚ × ℚ)) : ℚ × ℚ :=
  ((l.map Prod.fst).sum / l.length, (l.map Prod.snd).sum / l.length)

/-- Step (a) of the normalizer: `offsets -= offsets.mean(axis=0)`. -/
def meanCentered (l : List (ℚ × ℚ)) : List (ℚ × ℚ) :=
  (fun m => l.map fun p => (p.1 - m.1, p.2 - m.2)) (colMean l)

/-- One row of `np.sum(np.abs(offsets), axis=1)`. -/
def totalOffset (p : ℚ × ℚ) : ℚ := |p.1| + |p.2|

/-- Helper for `np.argmin`: first index of the minimum.  `i` is the index of the
head of the remaining list, `bv` the current best value, `best` its index. -/
def argminAux : List ℚ → ℕ → ℚ → ℕ → ℕ
  | [], _, _, best => best
  | x :: xs, i, bv, best =>
    if x < bv then argminAux xs (i + 1) x i else argminAux xs (i + 1) bv best

/-- `np.argmin`: index of the first minimal entry (0 on the empty list). -/
def argminIdx : List ℚ → ℕ
  | [] => 0
  | x :: xs => argminAux xs 1 x 0

/-- The anchor offset `offsets[np.argmin(total_offsets)]`, taken after mean
subtraction exactly as in the code. -/
def anchorOf (l : List (ℚ × ℚ)) : ℚ × ℚ :=
  (meanCentered l).getD (argminIdx ((meanCentered l).map totalOffset)) (0, 0)

/-- Full drift normalizer: subtract the column mean, then subtract the offset of
the frame minimising the total absolute offset (lines 509-516). -/
def normalizeOffsets (l : List (ℚ × ℚ)) : List (ℚ × ℚ) :=
  (fun a => (meanCentered l).map fun p => (p.1 - a.1, p.2 - a.2)) (anchorOf l)

/-! ## Frames and the offset estimator (lines 437-502) -/

/-- A sub-window of a CCD: unbinned lower-left corner `llx, lly`, binning
factors, and binned size `nx × ny`. -/
structure Window where
  llx : ℕ
  lly : ℕ
  xbin : ℕ
  ybin : ℕ
  nx : ℕ
  ny : ℕ
  deriving DecidableEq

/-- Binned x placement `wind.llx // wind.xbin`. -/
def Window.xlo (w : Window) : ℕ := w.llx / w.xbin

/-- Binned y placement `wind.lly // wind.ybin`. -/
def Window.ylo (w : Window) : ℕ := w.lly / w.ybin

/-- One frame as seen by the first pass: per-CCD data flags and window lists,
plus the quantities the external collaborators report for this frame (the
`MJDUTC` header time, the mean FWHM from `moveApers`, and the mean per-frame
aperture shift `dx, dy` over reference apertures). -/
structure FrameObs where
  data : List (String × Bool)
  wins : List (String × List Window)
  mjd : ℚ
  fwhm : ℚ
  dx : ℚ
  dy : ℚ
  deriving DecidableEq

/-- `mccd[cnam].is_data()`. -/
def FrameObs.isData (f : FrameObs) (cnam : String) : Bool :=
  (f.data.lookup cnam).getD false

/-- `any(mccd[cnam].is_data() for cnam in mccd)`. -/
def FrameObs.anyData (f : FrameObs) : Bool :=
  f.data.any fun p => p.2

/-- Offset estimator loop (lines 437-502).  `nf` is the enumeration index and
`xoff, yoff` the running cumulative offset.  A frame without data in the
reference CCD is silently skipped when no CCD has data, and otherwise raises
the `refNoData` error.  Returns the recorded cumulative offsets, FWHM values
and MJD timestamps, in frame order. -/
def estimateAux (refCnam : String) :
    List FrameObs → ℕ → ℚ → ℚ → Except HipercamError (List (ℚ × ℚ) × List ℚ × List ℚ)
  | [], _, _, _ => .ok ([], [], [])
  | f :: fs, nf, xoff, yoff =>
    if f.isData refCnam = false then
      if f.anyData = false then
        estimateAux refCnam fs (nf + 1) xoff yoff
      else
        .error (.refNoData nf refCnam)
    else
      match estimateAux refCnam fs (nf + 1) (xoff + f.dx) (yoff + f.dy) with
      | .error e => .error e
      | .ok (os, fws, ms) =>
        .ok ((xoff + f.dx, yoff + f.dy) :: os, f.fwhm :: fws, f.mjd :: ms)

/-- The whole first pass, starting at frame 0 with zero cumulative offset. -/
def estimateOffsets (refCnam : String) (frames : List FrameObs) :
    Except HipercamError (List (ℚ × ℚ) × List ℚ × List ℚ) :=
  estimateAux refCnam frames 0 0 0

/-! ## Reprojection grid, Python slices and the footprint mask (lines 560-633) -/

/-- A full-sensor grid of pixel values; `none` is NaN. -/
abbrev Grid : Type := List (List (Option ℚ))

/-- Python `int()`: truncation toward zero. -/
def pyInt (q : ℚ) : ℤ := q.num.tdiv q.den

/-- Normalisation of a Python slice endpoint for a sequence of length `n`:
negative values count from the end, then the result is clamped to `[0, n]`. -/
def pyIdx (n : ℕ) (a : ℤ) : ℕ :=
  (min (max (if a < 0 then a + n else a) 0) (n : ℤ)).toNat

/-- The cells of an `nrows × ncols` output grid covered by
`mask[ystart-int(foy) : yend-int(foy), xstart-int(fox) : xend-int(fox)] = True`
(lines 621-629), with Python slice semantics on both axes. -/
def maskKeep (nrows ncols : ℕ) (w : Window) (fox foy : ℤ) (r c : ℕ) : Bool :=
  let ys := pyIdx nrows ((w.ylo : ℤ) - foy)
  let ye := pyIdx nrows ((w.ylo : ℤ) + w.ny - foy)
  let xs := pyIdx ncols ((w.xlo : ℤ) - fox)
  let xe := pyIdx ncols ((w.xlo : ℤ) + w.nx - fox)
  decide (ys ≤ r) && decide (r < ye) && decide (xs ≤ c) && decide (c < xe)

/-- `reprojected_data[~mask] = np.nan` (lines 626-630): every cell outside the
slice-covered region becomes NaN, the others are unchanged. -/
def maskLayer (g : Grid) (w : Window) (fox foy : ℤ) : Grid :=
  (fun nrows ncols =>
    g.enum.map fun rc => rc.2.enum.map fun cv =>
      if maskKeep nrows ncols w fox foy rc.1 cv.1 then cv.2 else none)
  g.length (g.headD []).length

/-- The window's drifted footprint in the sense of the spec: the binned window
rectangle translated by the (truncated) frame offset, as a region of the
plane. -/
def inFootprint (w : Window) (fox foy : ℤ) (r c : ℕ) : Bool :=
  decide ((w.ylo : ℤ) - foy ≤ r) && decide ((r : ℤ) < (w.ylo : ℤ) + w.ny - foy) &&
    decide ((w.xlo : ℤ) - fox ≤ c) && decide ((c : ℤ) < (w.xlo : ℤ) + w.nx - fox)

/-! ## Per-sensor resampling pass and stack (lines 540-675) -/

/-- One frame's view of a single CCD in the per-sensor second pass. -/
structure CCDFrame where
  isData : Bool
  wins : List Window
  deriving DecidableEq

/-- Per-sensor resampling loop (lines 542-633).  `kernel w off` abstracts the
reprojection call (`reproject_interp` / `reproject_adaptive` /
`reproject_exact`) for window `w` at frame offset `off`; the returned full-grid
layer is masked and appended, one per window.  `nf` enumerates all frames of
the run; `fwhms` and `offsets` are indexed exactly as `fwhm_values[nf]` and
`offsets[nf]`, erroring when the index is out of range.  Returns the
accumulated layers `arrs` and `nframes_used`. -/
def stackLayers (kernel : Window → ℚ × ℚ → Grid) (fthresh : ℚ) (fwhms : List ℚ)
    (offsets : List (ℚ × ℚ)) :
    List CCDFrame → ℕ → Except HipercamError (List Grid × ℕ)
  | [], _ => .ok ([], 0)
  | f :: fs, nf =>
    if f.isData = false then
      stackLayers kernel fthresh fwhms offsets fs (nf + 1)
    else
      match (if 0 < fthresh then (fwhms.get? nf).map fun fw => decide (fthresh < fw)
             else some false) with
      | none => .error .indexError
      | some true => stackLayers kernel fthresh fwhms offsets fs (nf + 1)
      | some false =>
        match offsets.get? nf with
        | none => .error .indexError
        | some off =>
          match stackLayers kernel fthresh fwhms offsets fs (nf + 1) with
          | .error e => .error e
          | .ok (rest, n) =>
            .ok ((f.wins.map fun w =>
              maskLayer (kernel w off) w (pyInt off.1) (pyInt off.2)) ++ rest, n + 1)

/-- Boolean form of the second pass's per-frame skip conditions: the frame has
no data in this CCD, or the FWHM threshold is active and the frame's recorded
FWHM exceeds it. -/
def frameSkippedB (fthresh : ℚ) (fwhms : List ℚ) (nf : ℕ) (f : CCDFrame) : Bool :=
  !f.isData || (decide (0 < fthresh) &&
    (match fwhms.get? nf with
     | some fw => decide (fthresh < fw)
     | none => false))

/-- Per-sensor processing after the offsets are known (lines 540-675): run the
resampling loop, fail when nothing was accumulated, otherwise combine the
stack (`combine` abstracts the median / clipped-mean reduction). -/
def processCCD (combine : List Grid → Grid) (kernel : Window → ℚ × ℚ → Grid)
    (cnam : String) (fthresh : ℚ) (fwhms : List ℚ) (offsets : List (ℚ × ℚ))
    (frames : List CCDFrame) : Except HipercamError Grid :=
  match stackLayers kernel fthresh fwhms offsets frames 0 with
  | .error e => .error e
  | .ok (arrs, nused) =>
    if arrs.length = 0 ∨ nused = 0 then .error (.noDataForCCD cnam)
    else .ok (combine arrs)

/-- The second pass's view of one CCD of a first-pass frame. -/
def ccdView (cnam : String) (f : FrameObs) : CCDFrame :=
  ⟨f.isData cnam, (f.wins.lookup cnam).getD []⟩

/-- First pass, drift normalization, and the per-sensor resampling loop for
CCD `cnam`, composed as in `shiftadd` (lines 437-633). -/
def shiftaddPass2 (kernel : Window → ℚ × ℚ → Grid) (cnam refCnam : String)
    (fthresh : ℚ) (frames : List FrameObs) : Except HipercamError (List Grid × ℕ) :=
  match estimateOffsets refCnam frames with
  | .error e => .error e
  | .ok (os, fws, _ms) =>
    stackLayers kernel fthresh fws (normalizeOffsets os) (frames.map (ccdView cnam)) 0

/-! ## Window reassembly (lines 677-691) -/

/-- Python list slice `xs[a:b]` (step 1). -/
def pySliceList {α : Type} (xs : List α) (a b : ℤ) : List α :=
  ((xs.drop (pyIdx xs.length a)).take (pyIdx xs.length b - pyIdx xs.length a))

/-- `stack[ystart:yend, xstart:xend]` for window `w` (lines 678-682). -/
def cropGrid (stack : Grid) (w : Window) : Grid :=
  (pySliceList stack (w.ylo : ℤ) ((w.ylo : ℤ) + w.ny)).map fun row =>
    pySliceList row (w.xlo : ℤ) ((w.xlo : ℤ) + w.nx)

/-- `np.isnan(crop).any()`. -/
def hasNaN (g : Grid) : Bool :=
  g.any fun row => row.any fun v => v.isNone

/-- Window reassembler (lines 677-691): crop each window's region out of the
combined composite; abort on the first window whose crop contains a NaN cell,
otherwise return the cropped data per window. -/
def reassembleCCD (cnam : String) (stack : Grid) :
    List (String × Window) → Except HipercamError (List (String × Grid))
  | [] => .ok []
  | (wnam, w) :: rest =>
    if hasNaN (cropGrid stack w) then .error (.nanInWindow cnam wnam)
    else
      match reassembleCCD cnam stack rest with
      | .error e => .error e
      | .ok out => .ok ((wnam, cropGrid stack w) :: out)

/-! ## WCS resolution (lines 522-532) -/

/-- The reprojection method selector. -/
inductive ReprMethod : Type
  | interp
  | adaptive
  | exact
  deriving DecidableEq

/-- The only WCS state the embedded control flow carries around: the reference
pixel of the coordinate system. -/
structure WCSData where
  crpix1 : ℚ
  crpix2 : ℚ
  deriving DecidableEq

/-- The fallback `wcs.WCS(naxis=2)` (zero reference pixel). -/
def basicWCS : WCSData := ⟨0, 0⟩

/-- Lines 522-532: `derived` is the outcome of `wcs_from_header` (`none` when
it raised).  With method 'exact' a failed derivation is fatal; otherwise the
basic fallback WCS is used. -/
def resolveWCS (method : ReprMethod) (derived : Option WCSData) :
    Except HipercamError WCSData :=
  match derived with
  | some w => .ok w
  | none =>
    if method = ReprMethod.exact then .error .wcsExactUnavailable
    else .ok basicWCS

/-- The part of the run from WCS resolution onward: resampling (abstracted by
`resample`) happens only once a WCS has been resolved. -/
def runWithWCS (method : ReprMethod) (derived : Option WCSData)
    (resample : WCSData → Except HipercamError (List Grid)) :
    Except HipercamError (List Grid) :=
  match resolveWCS method derived with
  | .error e => .error e
  | .ok w => resample w

/-! ## Output timestamp (lines 712-713) -/

/-- `np.min` on a list (0 on the empty list, where numpy would raise). -/
def listMin : List ℚ → ℚ
  | [] => 0
  | x :: xs => xs.foldl min x

/-- `np.max` on a list (0 on the empty list, where numpy would raise). -/
def listMax : List ℚ → ℚ
  | [] => 0
  | x :: xs => xs.foldl max x

/-- `np.min(mjds) + 0.5 * (np.max(mjds) - np.min(mjds))`. -/
def midTime (mjds : List ℚ) : ℚ :=
  listMin mjds + (listMax mjds - listMin mjds) / 2

/-- The output `MJDUTC` of a run: the midpoint formula applied to the
timestamps recorded by the first pass.  `fthresh` is the FWHM threshold the
second pass uses for frame exclusion; it plays no part in this value. -/
def outputMJD (refCnam : String) (fthresh : ℚ) (frames : List FrameObs) :
    Except HipercamError ℚ :=
  match fthresh, estimateOffsets refCnam frames with
  | _, .error e => .error e
  | _, .ok (_os, _fws, ms) => .ok (midTime ms)

/-! ## Concrete inputs used in counterexamples and witnesses -/

/-- A trivial reprojection kernel producing a 1×1 defined grid. -/
def kTriv : Window → ℚ × ℚ → Grid := fun _ _ => [[some 0]]

/-- A 2×2-pixel window at (1,1), unbinned. -/
def w1Ex : Window := ⟨1, 1, 1, 1, 2, 2⟩

/-- A second 2×2-pixel window at (4,1), unbinned. -/
def w2Ex : Window := ⟨4, 1, 1, 1, 2, 2⟩

/-- A frame of a two-window CCD, with data present. -/
def cFrameEx : CCDFrame := ⟨true, [w1Ex, w2Ex]⟩

/-- The layers accumulated for `cFrameEx` at offset (0,0): one per window. -/
def arrsEx : List Grid :=
  [maskLayer (kTriv w1Ex (0, 0)) w1Ex (pyInt 0) (pyInt 0),
    maskLayer (kTriv w2Ex (0, 0)) w2Ex (pyInt 0) (pyInt 0)]

/-- A 6×6 all-defined grid, standing for any kernel output without NaNs. -/
def gEx : Grid := List.replicate 6 (List.replicate 6 (some 0))

/-- Frame 0: data in CCD "1" (the reference), no aperture shift. -/
def f0Ex : FrameObs := ⟨[("1", true)], [("1", [w1Ex])], 0, 1, 0, 0⟩

/-- Frame 1: no data in any CCD (skipped by the first pass). -/
def f1Ex : FrameObs := ⟨[("1", false)], [("1", [w1Ex])], 1, 1, 0, 0⟩

/-- Frame 2: data again; measured aperture shift (1, 0). -/
def f2Ex : FrameObs := ⟨[("1", true)], [("1", [w1Ex])], 2, 1, 1, 0⟩

/-- A frame with no data in the reference CCD "1" while CCD "2" has data. -/
def fRefMissEx : FrameObs := ⟨[("1", false), ("2", true)], [], 0, 1, 0, 0⟩

/-- Timestamp witness, frame 1: MJD 0, FWHM 1. -/
def fT1 : FrameObs := ⟨[("1", true)], [("1", [w1Ex])], 0, 1, 0, 0⟩

/-- Timestamp witness, frame 2: MJD 10, FWHM 5 (excluded by threshold 2). -/
def fT2 : FrameObs := ⟨[("1", true)], [("1", [w1Ex])], 10, 5, 0, 0⟩

/-- A resampler stub for the WCS witness. -/
def resampleEx : WCSData → Except HipercamError (List Grid) := fun _ => .ok []

/-- A combiner stub. -/
def combineEx : List Grid → Grid := fun _ => []

/-- A 4×4 composite with a NaN at cell (0,0). -/
def stackBadEx : Grid :=
  [[none, some 1, some 1, some 1],
    [some 1, some 1, some 1, some 1],
    [some 1, some 1, some 1, some 1],
    [some 1, some 1, some 1, some 1]]

/-- A 4×4 all-defined composite. -/
def stackOkEx : Grid := List.replicate 4 (List.replicate 4 (some 2))

/-- A 2×2 window at the grid origin for the reassembly witness. -/
def wcEx : Window := ⟨0, 0, 1, 1, 2, 2⟩

end Shiftadd

namespace Shiftadd

/-! ## Lemmas about the drift normalizer -/

theorem sum_map_sub (l : List (ℚ × ℚ)) (f : ℚ × ℚ → ℚ) (t : ℚ) :
    (l.map fun p => f p - t).sum = (l.map f).sum - l.length * t := by
  induction l with
  | nil => simp
  | cons x xs ih =>
    simp only [List.map_cons, List.sum_cons, ih, List.length_cons]
    push_cast
    ring

theorem meanCentered_sum_fst (l : List (ℚ × ℚ)) :
    ((meanCentered l).map Prod.fst).sum = (l.map Prod.fst).sum - l.length * (colMean l).1 := by
  simp only [meanCentered, List.map_map]
  exact sum_map_sub l Prod.fst (colMean l).1

theorem meanCentered_sum_snd (l : List (ℚ × ℚ)) :
    ((meanCentered l).map Prod.snd).sum = (l.map Prod.snd).sum - l.length * (colMean l).2 := by
  simp only [meanCentered, List.map_map]
  exact sum_map_sub l Prod.snd (colMean l).2

theorem normalize_sum_fst (l : List (ℚ × ℚ)) :
    ((normalizeOffsets l).map Prod.fst).sum =
      ((meanCentered l).map Prod.fst).sum - (meanCentered l).length * (anchorOf l).1 := by
  simp only [normalizeOffsets, List.map_map]
  exact sum_map_sub (meanCentered l) Prod.fst (anchorOf l).1

theorem normalize_sum_snd (l : List (ℚ × ℚ)) :
    ((normalizeOffsets l).map Prod.snd).sum =
      ((meanCentered l).map Prod.snd).sum - (meanCentered l).length * (anchorOf l).2 := by
  simp only [normalizeOffsets, List.map_map]
  exact sum_map_sub (meanCentered l) Prod.snd (anchorOf l).2

theorem argminAux_lt (xs : List ℚ) : ∀ (i best : ℕ) (bv : ℚ), best < i →
    argminAux xs i bv best < i + xs.length := by
  induction xs with
  | nil =>
    intro i best bv h
    simpa [argminAux] using Nat.lt_of_lt_of_le h (Nat.le_refl i)
  | cons x xs ih =>
    intro i best bv h
    simp only [argminAux, List.length_cons]
    by_cases hx : x < bv
    · rw [if_pos hx]
      have hr := ih (i + 1) i x (Nat.lt_succ_self i)
      omega
    · rw [if_neg hx]
      have hr := ih (i + 1) best bv (Nat.lt_succ_of_lt h)
      omega

theorem argminIdx_lt (xs : List ℚ) (h : xs ≠ []) : argminIdx xs < xs.length := by
  match xs with
  | x :: xs =>
    simp only [argminIdx, List.length_cons]
    have hr := argminAux_lt xs 1 0 x Nat.one_pos
    omega

/-- C1 counterexample: for the input offsets `[(-1,-1), (1,1)]` the full drift
normalizer outputs `[(0,0), (2,2)]`, whose column-wise mean is `(1,1)`, not
`(0,0)` (nor anywhere near it): re-referencing to the anchor frame destroys the
zero-mean property established by step (a). -/
theorem drift_mean_nonzero_after_anchor :
    colMean (normalizeOffsets [((-1 : ℚ), -1), (1, 1)]) ≠ (0, 0) := by
  norm_num [normalizeOffsets, meanCentered, colMean, anchorOf, argminIdx, argminAux,
    totalOffset, List.getD]

/-- C1 amended: after the mean-subtraction step (a) the column-wise mean of the
offsets is exactly `(0,0)` (in exact arithmetic), but the full normalizer (steps
(a) and (b)) has column-wise mean equal to minus the anchor frame's mean-centred
offset, which is nonzero whenever the anchor offset is. -/
theorem drift_mean_after_steps (offs : List (ℚ × ℚ)) (h : offs ≠ []) :
    colMean (meanCentered offs) = (0, 0) ∧
    colMean (normalizeOffsets offs) = (-(anchorOf offs).1, -(anchorOf offs).2) := by
  have hn : (offs.length : ℚ) ≠ 0 := Nat.cast_ne_zero.mpr (List.length_pos.mpr h).ne'
  have hlen : (meanCentered offs).length = offs.length := by simp [meanCentered]
  have hnlen : (normalizeOffsets offs).length = offs.length := by
    simp [normalizeOffsets, hlen]
  have hfst : ((meanCentered offs).map Prod.fst).sum = 0 := by
    rw [meanCentered_sum_fst]
    simp only [colMean]
    field_simp
  have hsnd : ((meanCentered offs).map Prod.snd).sum = 0 := by
    rw [meanCentered_sum_snd]
    simp only [colMean]
    field_simp
  constructor
  · simp [colMean, hfst, hsnd]
  · have h1 : ((normalizeOffsets offs).map Prod.fst).sum = -(offs.length * (anchorOf offs).1) := by
      rw [normalize_sum_fst, hfst, hlen]; ring
    have h2 : ((normalizeOffsets offs).map Prod.snd).sum = -(offs.length * (anchorOf offs).2) := by
      rw [normalize_sum_snd, hsnd, hlen]; ring
    simp only [colMean, h1, h2, hnlen, Prod.mk.injEq]
    constructor <;> field_simp <;> ring

/-- Witness for the amended C1 statement at the concrete input `[(-1,-1), (1,1)]`. -/
theorem drift_mean_after_steps_app :
    colMean (meanCentered [((-1 : ℚ), -1), (1, 1)]) = (0, 0) ∧
    colMean (normalizeOffsets [((-1 : ℚ), -1), (1, 1)]) =
      (-(anchorOf [((-1 : ℚ), -1), (1, 1)]).1, -(anchorOf [((-1 : ℚ), -1), (1, 1)]).2) :=
  drift_mean_after_steps [((-1 : ℚ), -1), (1, 1)] (by simp)

/-- C6: after drift normalization of any non-empty offset list the entry at the
index minimising the sum of absolute (mean-centred) offset components is exactly
`(0,0)`, so at least one output entry is exactly `(0,0)`. -/
theorem drift_anchor_zero (offs : List (ℚ × ℚ)) (h : offs ≠ []) :
    (normalizeOffsets offs).getD
      (argminIdx ((meanCentered offs).map totalOffset)) (1, 1) = (0, 0) ∧
    (0, 0) ∈ normalizeOffsets offs := by
  have hlen : (meanCentered offs).length = offs.length := by simp [meanCentered]
  have hne : (meanCentered offs).map totalOffset ≠ [] := by
    simp only [ne_eq, List.map_eq_nil_iff, meanCentered]
    simpa using h
  have hklt : argminIdx ((meanCentered offs).map totalOffset) < (meanCentered offs).length := by
    have hr := argminIdx_lt _ hne
    simpa using hr
  have hnlen : argminIdx ((meanCentered offs).map totalOffset) <
      (normalizeOffsets offs).length := by
    simpa [normalizeOffsets] using hklt
  have hanchor : anchorOf offs =
      (meanCentered offs)[argminIdx ((meanCentered offs).map totalOffset)] := by
    simp only [anchorOf]
    exact List.getD_eq_getElem _ _ hklt
  have hval : (normalizeOffsets offs)[argminIdx ((meanCentered offs).map totalOffset)] =
      (0, 0) := by
    simp only [normalizeOffsets, List.getElem_map, hanchor]
    simp
  refine ⟨(List.getD_eq_getElem _ _ hnlen).trans hval, ?_⟩
  have hmem := List.getElem_mem hnlen
  rw [hval] at hmem
  exact hmem

/-- Witness for C6 at the concrete input `[(2,3)]`. -/
theorem drift_anchor_zero_app :
    (normalizeOffsets [((2 : ℚ), 3)]).getD
      (argminIdx ((meanCentered [((2 : ℚ), 3)]).map totalOffset)) (1, 1) = (0, 0) ∧
    (0, 0) ∈ normalizeOffsets [((2 : ℚ), 3)] :=
  drift_anchor_zero [((2 : ℚ), 3)] (by simp)

/-! ## The offset estimator on frames without reference-CCD data (C2) -/

/-- C2 counterexample: a frame whose reference CCD "1" has no data while CCD
"2" does makes the offset estimator abort with the error naming the frame and
the reference CCD — the frame is not skipped, refuting "skipping, not a fatal
error, is the required behaviour". -/
theorem estimator_ref_missing_fails :
    estimateOffsets "1" [fRefMissEx] = .error (.refNoData 0 "1") := by
  simp [estimateOffsets, estimateAux, fRefMissEx, FrameObs.isData, FrameObs.anyData,
    List.lookup]

/-- C2 corrected: when a frame has no data in the reference sensor, the offset
estimator raises a fatal error naming the frame index and the reference sensor
whenever any sensor of the frame has data; it skips the frame (no offset, FWHM
or MJD entries, no error) only when no sensor has data at all. -/
theorem estimator_skip_or_fail (refCnam : String) (f : FrameObs) (fs : List FrameObs)
    (nf : ℕ) (xoff yoff : ℚ) (h : f.isData refCnam = false) :
    (f.anyData = true →
      estimateAux refCnam (f :: fs) nf xoff yoff = .error (.refNoData nf refCnam)) ∧
    (f.anyData = false →
      estimateAux refCnam (f :: fs) nf xoff yoff =
        estimateAux refCnam fs (nf + 1) xoff yoff) := by
  constructor
  · intro ha
    simp [estimateAux, h, ha]
  · intro ha
    simp [estimateAux, h, ha]

/-- Witness for the corrected C2 statement at the concrete frame `fRefMissEx`. -/
theorem estimator_skip_or_fail_app :
    estimateAux "1" [fRefMissEx] 0 0 0 = .error (.refNoData 0 "1") :=
  (estimator_skip_or_fail "1" fRefMissEx [] 0 0 0
      (by simp [fRefMissEx, FrameObs.isData, List.lookup])).1
    (by simp [fRefMissEx, FrameObs.anyData])

/-! ## WCS resolution (C7) -/

/-- C7: if method 'exact' is requested and the WCS derivation from the first
frame's header failed, the run aborts with the configuration error before any
resampling (whatever the resampler would do); for every other method the same
failure is not fatal and the basic fallback WCS is handed to the resampler. -/
theorem wcs_exact_gate (resample : WCSData → Except HipercamError (List Grid)) :
    runWithWCS ReprMethod.exact none resample = .error .wcsExactUnavailable ∧
    ∀ m : ReprMethod, m ≠ ReprMethod.exact →
      runWithWCS m none resample = resample basicWCS := by
  constructor
  · rfl
  · intro m hm
    cases m with
    | interp => simp [runWithWCS, resolveWCS]
    | adaptive => simp [runWithWCS, resolveWCS]
    | exact => exact absurd rfl hm

/-- Witness for C7 with a concrete resampler stub. -/
theorem wcs_exact_gate_app :
    runWithWCS ReprMethod.exact none resampleEx = .error .wcsExactUnavailable ∧
    runWithWCS ReprMethod.adaptive none resampleEx = resampleEx basicWCS :=
  ⟨(wcs_exact_gate resampleEx).1,
    (wcs_exact_gate resampleEx).2 ReprMethod.adaptive (by decide)⟩

/-! ## Output timestamp (C10) -/

/-- C10: the output `MJDUTC` equals the midpoint formula (minimum plus half the
span) over the timestamps of every frame the first pass recorded, whatever the
FWHM threshold is: a frame the threshold later excludes from combination still
contributes its timestamp to the output time. -/
theorem shiftadd_midtime (refCnam : String) (frames : List FrameObs) (fthresh : ℚ)
    (os : List (ℚ × ℚ)) (fws ms : List ℚ)
    (h : estimateOffsets refCnam frames = .ok (os, fws, ms)) :
    outputMJD refCnam fthresh frames =
      .ok (listMin ms + (listMax ms - listMin ms) / 2) := by
  simp [outputMJD, h, midTime]

/-- Witness for C10: with FWHM threshold 2, frame `fT2` (FWHM 5) is excluded
from combination, yet its timestamp 10 still sets the output midpoint to 5
(dropping it would give 0 instead). -/
theorem shiftadd_midtime_app :
    outputMJD "1" 2 [fT1, fT2] = .ok 5 ∧ midTime [(0 : ℚ)] ≠ 5 := by
  constructor
  · have h := shiftadd_midtime "1" [fT1, fT2] 2 [(0, 0), (0, 0)] [1, 5] [0, 10]
      (by norm_num [estimateOffsets, estimateAux, fT1, fT2, FrameObs.isData, List.lookup])
    rw [h]
    norm_num [listMin, listMax, List.foldl, min_def, max_def]
  · norm_num [midTime, listMin, listMax]

/-! ## Zero surviving frames for a sensor (C8) -/

theorem stackLayers_all_skipped (kernel : Window → ℚ × ℚ → Grid) (fthresh : ℚ)
    (fwhms : List ℚ) (offsets : List (ℚ × ℚ)) :
    ∀ (frames : List CCDFrame) (nf : ℕ),
      (List.enumFrom nf frames).all (fun p => frameSkippedB fthresh fwhms p.1 p.2) = true →
      stackLayers kernel fthresh fwhms offsets frames nf = .ok ([], 0) := by
  intro frames
  induction frames with
  | nil => intro nf _; rfl
  | cons f fs ih =>
    intro nf h
    simp only [List.enumFrom, List.all_cons, Bool.and_eq_true] at h
    obtain ⟨h0, hrest⟩ := h
    by_cases hd : f.isData = false
    · simp only [stackLayers, if_pos hd]
      exact ih (nf + 1) hrest
    · have hd' : f.isData = true := by revert hd; cases f.isData <;> simp
      simp only [frameSkippedB, hd', Bool.not_true, Bool.false_or, Bool.and_eq_true] at h0
      obtain ⟨hpos, hmatch⟩ := h0
      have hpos' : (0 : ℚ) < fthresh := of_decide_eq_true hpos
      rcases hg : fwhms.get? nf with _ | fw
      · rw [hg] at hmatch
        cases hmatch
      · rw [hg] at hmatch
        have hmatch' : decide (fthresh < fw) = true := by simpa using hmatch
        simp only [stackLayers, if_neg hd, if_pos hpos', hg, Option.map_some']
        rw [hmatch']
        exact ih (nf + 1) hrest

/-- C8: if zero frames survive the skip logic for a sensor (every frame either
has no data in it or exceeds the FWHM threshold), processing that sensor fails
with the error naming the offending sensor, and this happens for every possible
combination function: combination is never attempted. -/
theorem sensor_no_frames_error (combine : List Grid → Grid)
    (kernel : Window → ℚ × ℚ → Grid) (cnam : String) (fthresh : ℚ) (fwhms : List ℚ)
    (offsets : List (ℚ × ℚ)) (frames : List CCDFrame)
    (h : frames.enum.all (fun p => frameSkippedB fthresh fwhms p.1 p.2) = true) :
    processCCD combine kernel cnam fthresh fwhms offsets frames =
      .error (.noDataForCCD cnam) := by
  have hs := stackLayers_all_skipped kernel fthresh fwhms offsets frames 0
    (by simpa [List.enum] using h)
  simp [processCCD, hs]

/-- Witness for C8: a single frame without data in the sensor. -/
theorem sensor_no_frames_error_app :
    processCCD combineEx kTriv "5" (-1) [] [] [⟨false, []⟩] =
      .error (.noDataForCCD "5") :=
  sensor_no_frames_error combineEx kTriv "5" (-1) [] [] [⟨false, []⟩] (by decide)

/-! ## Window reassembly (C9) -/

/-- C9: for every window of a sensor, if the region cropped from the combined
composite contains an undefined cell, reassembly aborts with the error naming
the sensor and a window whose crop is undefined; if no window's crop contains
one, every window receives exactly its crop, unchanged. -/
theorem reassemble_crop_spec (cnam : String) (stack : Grid)
    (wins : List (String × Window)) :
    ((∀ p ∈ wins, hasNaN (cropGrid stack p.2) = false) →
      reassembleCCD cnam stack wins = .ok (wins.map fun p => (p.1, cropGrid stack p.2))) ∧
    (∀ p ∈ wins, hasNaN (cropGrid stack p.2) = true →
      ∃ q ∈ wins, hasNaN (cropGrid stack q.2) = true ∧
        reassembleCCD cnam stack wins = .error (.nanInWindow cnam q.1)) := by
  induction wins with
  | nil => exact ⟨fun _ => rfl, fun p hp => absurd hp (List.not_mem_nil p)⟩
  | cons pw rest ih =>
    obtain ⟨wnam, w⟩ := pw
    by_cases hdirty : hasNaN (cropGrid stack w) = true
    · constructor
      · intro hclean
        have := hclean (wnam, w) (by simp)
        rw [this] at hdirty
        cases hdirty
      · intro p hp hph
        exact ⟨(wnam, w), by simp, hdirty, by simp [reassembleCCD, hdirty]⟩
    · have hfd : hasNaN (cropGrid stack w) = false := by
        revert hdirty; cases hasNaN (cropGrid stack w) <;> simp
      constructor
      · intro hclean
        have hrec := ih.1 fun p hp => hclean p (by simp [hp])
        simp [reassembleCCD, hfd, hrec]
      · intro p hp hph
        have hpr : p ∈ rest := by
          rcases List.mem_cons.mp hp with heq | hm
          · rw [heq] at hph
            simp only at hph
            rw [hph] at hfd
            cases hfd
          · exact hm
        obtain ⟨q, hq, hqd, herr⟩ := ih.2 p hpr hph
        exact ⟨q, by simp [hq], hqd, by simp [reassembleCCD, hfd, herr]⟩

/-- Witness for C9: a clean crop is written unchanged; a crop containing an
undefined cell aborts with the error naming sensor "3" and window "1". -/
theorem reassemble_crop_spec_app :
    reassembleCCD "3" stackOkEx [("1", wcEx)] =
      .ok [("1", cropGrid stackOkEx wcEx)] ∧
    reassembleCCD "3" stackBadEx [("1", wcEx)] =
      .error (.nanInWindow "3" "1") := by
  constructor
  · exact (reassemble_crop_spec "3" stackOkEx [("1", wcEx)]).1 (by decide)
  · obtain ⟨q, hq, hqd, herr⟩ := (reassemble_crop_spec "3" stackBadEx [("1", wcEx)]).2
      ("1", wcEx) (by simp) (by decide)
    rw [List.mem_singleton] at hq
    rw [hq] at herr
    exact herr

/-! ## One layer per window, not per frame (C3) -/

/-- C3 counterexample: a single used frame of a two-window CCD accumulates two
masked layers, so the stack's frame axis has length 2 while `nframes_used` is
1 — the frame-axis length is not the number of used frames. -/
theorem stack_two_windows_two_layers :
    stackLayers kTriv (-1) [1] [(0, 0)] [cFrameEx] 0 = .ok (arrsEx, 1) ∧
    arrsEx.length = 2 ∧ (2 : ℕ) ≠ 1 := by
  refine ⟨?_, by simp [arrsEx], by decide⟩
  norm_num [stackLayers, cFrameEx, arrsEx, List.get?]

/-- C3 corrected: the resampling pass accumulates one resampled, masked
full-grid layer per window of each used frame, so for a sensor whose frames
all have `W` windows the stack's frame-axis length is `W` times the number of
used frames; it equals the number of used frames only when `W = 1`. -/
theorem stack_layers_per_window (kernel : Window → ℚ × ℚ → Grid) (fthresh : ℚ)
    (fwhms : List ℚ) (offsets : List (ℚ × ℚ)) (W : ℕ) :
    ∀ (frames : List CCDFrame) (nf : ℕ) (arrs : List Grid) (n : ℕ),
      (∀ f ∈ frames, f.wins.length = W) →
      stackLayers kernel fthresh fwhms offsets frames nf = .ok (arrs, n) →
      arrs.length = W * n := by
  intro frames
  induction frames with
  | nil =>
    intro nf arrs n _ h
    simp only [stackLayers, Except.ok.injEq, Prod.mk.injEq] at h
    obtain ⟨h1, h2⟩ := h
    subst h1
    subst h2
    simp
  | cons f fs ih =>
    intro nf arrs n hW h
    have hWf : f.wins.length = W := hW f (List.mem_cons_self f fs)
    have hWfs : ∀ g ∈ fs, g.wins.length = W := fun g hg => hW g (List.mem_cons_of_mem f hg)
    simp only [stackLayers] at h
    by_cases hd : f.isData = false
    · rw [if_pos hd] at h
      exact ih (nf + 1) arrs n hWfs h
    · rw [if_neg hd] at h
      rcases hfl : (if 0 < fthresh then (fwhms.get? nf).map (fun fw => decide (fthresh < fw))
          else some false) with _ | b
      · rw [hfl] at h
        simp at h
      · rw [hfl] at h
        cases b with
        | true => exact ih (nf + 1) arrs n hWfs h
        | false =>
          rcases ho : offsets.get? nf with _ | off
          · rw [ho] at h
            simp at h
          · rw [ho] at h
            rcases hrec : stackLayers kernel fthresh fwhms offsets fs (nf + 1) with e | pr
            · rw [hrec] at h
              simp at h
            · obtain ⟨rest, m⟩ := pr
              rw [hrec] at h
              simp only [Except.ok.injEq, Prod.mk.injEq] at h
              obtain ⟨h1, h2⟩ := h
              subst h2
              have hr := ih (nf + 1) rest m hWfs hrec
              rw [← h1]
              simp only [List.length_append, List.length_map, hWf, hr]
              ring

/-- Witness for the corrected C3 statement at the concrete one-frame input:
two windows, one used frame, stack length `2 * 1`. -/
theorem stack_layers_per_window_app : arrsEx.length = 2 * 1 :=
  stack_layers_per_window kTriv (-1) [1] [(0, 0)] 2 [cFrameEx] 0 arrsEx 1
    (by intro f hf; rw [List.mem_singleton] at hf; subst hf; rfl)
    (by norm_num [stackLayers, cFrameEx, arrsEx, List.get?])

/-! ## Offset/FWHM pairing after a skipped frame (C4) -/

/-- C4 (bug): with frames [data, no-data-in-any-CCD, data], the first pass
records offsets and FWHMs for frames 0 and 2 only (two entries), but the
second pass indexes `offsets[nf]` with the raw frame index, so frame 2 looks up
`offsets[2]`, which is out of range: the run crashes with an IndexError instead
of pairing frame 2 with its own offset (with further trailing frames it first
silently pairs frames with a later frame's offset and FWHM).  There is no
re-alignment with the retained frame list. -/
theorem pass2_misalignment_crash :
    shiftaddPass2 kTriv "1" "1" (-1) [f0Ex, f1Ex, f2Ex] = .error .indexError := by
  norm_num [shiftaddPass2, estimateOffsets, estimateAux, f0Ex, f1Ex, f2Ex,
    FrameObs.isData, FrameObs.anyData, List.lookup, ccdView, stackLayers,
    normalizeOffsets, meanCentered, colMean, anchorOf, argminIdx, argminAux,
    totalOffset, List.getD, List.get?]

/-! ## Mask leaves cells outside the drifted footprint defined (C5) -/

/-- C5 (bug): on a 6×6 grid with window `w1Ex` (binned rows and columns 1..2)
and integer frame offset (0, 4), the mask slice bounds `1-4 : 3-4 = -3 : -1`
are both negative, so Python slice semantics wrap them to rows 3..4.  Cell
(3, 1) lies outside the window's drifted footprint (which is entirely below
the grid) yet keeps its reprojected value after masking — here the all-defined
kernel output `gEx` — contradicting the invariant that every cell outside the
footprint is NaN after masking, for any kernel. -/
theorem mask_wraparound_leak :
    ((maskLayer gEx w1Ex 0 4).getD 3 []).getD 1 none = some 0 ∧
    inFootprint w1Ex 0 4 3 1 = false := by
  constructor
  · decide
  · decide

end Shiftadd
